import Mathlib

/-!
Verification of the ImageWrangler batch image processor (`src/main.py`).

The development shallowly embeds the `ImageProcessor` worker: the pixel-mode
handling inside `_resize_image` (lines 61-105), `_invert_image` (124-138),
`_rename_file` (140-184), `_get_output_path` (186-209) and the batch loop
`run` (32-54).  Pillow primitives that the code calls (`Image.convert`,
`Image.paste` with and without an alpha mask, `ImageOps.invert`) are modelled
pixelwise on lists of samples; the exact fixed-point blend used by Pillow's
`paste` (`MULDIV255`) is reproduced.  CPython's binary64 arithmetic in
`int((i + 1) / total_files * 100)` is modelled by exact round-to-nearest-even
rounding on rationals.
-/

namespace ImageWrangler

/-- ASCII upper-casing of one character, as Python's `str.upper` acts on the
ASCII format names handled by the code. -/
def asciiUpperChar (c : Char) : Char :=
  if 'a' ≤ c ∧ c ≤ 'z' then Char.ofNat (c.toNat - 32) else c

/-- ASCII lower-casing of one character, as Python's `str.lower` acts on the
ASCII format names handled by the code. -/
def asciiLowerChar (c : Char) : Char :=
  if 'A' ≤ c ∧ c ≤ 'Z' then Char.ofNat (c.toNat + 32) else c

/-- Model of `str.upper()` on the ASCII strings the code feeds it. -/
def strUpper (s : String) : String := ⟨s.data.map asciiUpperChar⟩

/-- Model of `str.lower()` on the ASCII strings the code feeds it. -/
def strLower (s : String) : String := ⟨s.data.map asciiLowerChar⟩

/-- Pixel modes of a decoded PIL image, restricted to the modes the spec's
data model enumerates: 8-bit grayscale `L`, grayscale+alpha `LA`, `RGB`,
`RGBA`, palette `P`, 16-bit grayscale `I16` (PIL "I;16"), generic integer
`I`, floating point `F`. -/
inductive Mode
  | L
  | LA
  | RGB
  | RGBA
  | P
  | I16
  | I
  | F
deriving DecidableEq

/-- One pixel; the constructor matches the image's mode.  Samples of the
integer and float modes are modelled as `Int` (float samples are taken at
integral values, which suffices for every claim considered). -/
inductive Px
  | gray (v : Nat)
  | grayA (v a : Nat)
  | rgb (r g b : Nat)
  | rgba (r g b a : Nat)
  | pal (idx : Nat)
  | i16 (v : Nat)
  | iInt (v : Int)
  | fVal (v : Int)
deriving DecidableEq

/-- A decoded image: its mode, its pixels (row-major; dimensions are not
needed by any claim) and, for palette images, the RGBA palette. -/
structure Img where
  mode : Mode
  px : List Px
  palette : List (Nat × Nat × Nat × Nat)
deriving DecidableEq

/-- Clamp an integer sample into the 8-bit range, as PIL does when
converting `I` or `F` mode images down to 8-bit. -/
def clamp255 (v : Int) : Nat := (min 255 (max 0 v)).toNat

/-- Pillow's fixed-point `MULDIV255(a, b)`: the correctly rounded
`a * b / 255` used by `Image.paste` when blending through an `L` mask. -/
def muldiv255 (a b : Nat) : Nat :=
  ((a * b + 128) / 256 + (a * b + 128)) / 256

/-- Blend of one channel by `Image.paste(src, mask=alpha)` over a background
channel value: `MULDIV255(bg, 255 - alpha) + MULDIV255(src, alpha)`. -/
def blendCh (alpha bg src : Nat) : Nat :=
  muldiv255 bg (255 - alpha) + muldiv255 src alpha

/-- Pixelwise `convert('RGB')` (Pillow semantics: gray replicated, alpha
dropped, palette looked up, integer and float samples clamped to 8 bits). -/
def pxToRGB (palette : List (Nat × Nat × Nat × Nat)) : Px → Px
  | .gray v => .rgb v v v
  | .grayA v _ => .rgb v v v
  | .rgb r g b => .rgb r g b
  | .rgba r g b _ => .rgb r g b
  | .pal idx =>
      let e := palette.getD idx (0, 0, 0, 255)
      .rgb e.1 e.2.1 e.2.2.1
  | .i16 v => let c := min v 255; .rgb c c c
  | .iInt v => let c := clamp255 v; .rgb c c c
  | .fVal v => let c := clamp255 v; .rgb c c c

/-- `img.convert('RGB')`. -/
def convertRGB (img : Img) : Img :=
  ⟨Mode.RGB, img.px.map (pxToRGB img.palette), img.palette⟩

/-- Pixelwise `convert('L')` (used by the code only on `I` and `F` images,
where Pillow clamps the sample; other modes use Pillow's ITU-R 601-2
luminance transform). -/
def pxToL (palette : List (Nat × Nat × Nat × Nat)) : Px → Px
  | .gray v => .gray v
  | .grayA v _ => .gray v
  | .rgb r g b => .gray ((r * 299 + g * 587 + b * 114) / 1000)
  | .rgba r g b _ => .gray ((r * 299 + g * 587 + b * 114) / 1000)
  | .pal idx =>
      let e := palette.getD idx (0, 0, 0, 255)
      .gray ((e.1 * 299 + e.2.1 * 587 + e.2.2.1 * 114) / 1000)
  | .i16 v => .gray (min v 255)
  | .iInt v => .gray (clamp255 v)
  | .fVal v => .gray (clamp255 v)

/-- `img.convert('L')`. -/
def convertL (img : Img) : Img :=
  ⟨Mode.L, img.px.map (pxToL img.palette), img.palette⟩

/-- `img.convert('RGBA')` on a palette image: palette lookup with alpha. -/
def pxToRGBA (palette : List (Nat × Nat × Nat × Nat)) : Px → Px
  | .pal idx =>
      let e := palette.getD idx (0, 0, 0, 255)
      .rgba e.1 e.2.1 e.2.2.1 e.2.2.2
  | .gray v => .rgba v v v 255
  | .grayA v a => .rgba v v v a
  | .rgb r g b => .rgba r g b 255
  | .rgba r g b a => .rgba r g b a
  | .i16 v => let c := min v 255; .rgba c c c 255
  | .iInt v => let c := clamp255 v; .rgba c c c 255
  | .fVal v => let c := clamp255 v; .rgba c c c 255

/-- `img.convert('RGBA')`. -/
def convertRGBA (img : Img) : Img :=
  ⟨Mode.RGBA, img.px.map (pxToRGBA img.palette), img.palette⟩

/-- The `I;16` branch of `_resize_image` (main.py 70-74): the numpy array of
16-bit samples is true-divided by 256 (exact in binary64, since 256 is a
power of two) and cast to `uint8`, which truncates - so each sample becomes
`v / 256` with natural-number division - and the result is retagged `L`. -/
def px16to8 : Px → Px
  | .i16 v => .gray (v / 256)
  | x => x

/-- Retagging of the rescaled array as an 8-bit grayscale image
(main.py 74). -/
def i16Rescale (img : Img) : Img :=
  ⟨Mode.L, img.px.map px16to8, img.palette⟩

/-- Composite an RGBA image onto an opaque white background through its own
alpha channel: `bg = Image.new('RGB', size, (255,255,255));
bg.paste(img, mask=img.split()[-1])` (main.py 95-97 and 129-130). -/
def pxCompositeWhite : Px → Px
  | .rgba r g b a => .rgb (blendCh a 255 r) (blendCh a 255 g) (blendCh a 255 b)
  | x => x

/-- Image-level composite onto white through the image's own alpha band. -/
def compositeOnWhiteRGBA (img : Img) : Img :=
  ⟨Mode.RGB, img.px.map pxCompositeWhite, img.palette⟩

/-- `ImageOps.invert`: every 8-bit channel value `v` becomes `255 - v`
(the code only ever applies it to `RGB` images; `L` is included for
completeness, other modes are untouched as PIL would reject them). -/
def pxInvert : Px → Px
  | .rgb r g b => .rgb (255 - r) (255 - g) (255 - b)
  | .gray v => .gray (255 - v)
  | x => x

/-- Image-level `ImageOps.invert`; the mode is unchanged. -/
def imageOpsInvert (img : Img) : Img :=
  ⟨img.mode, img.px.map pxInvert, img.palette⟩

/-- Outcome of the guarded mode conversion attempted inside the `try` block
of `_resize_image` (main.py 67-77): `I;16` goes through the numpy rescale,
`I` and `F` go through `convert('L')`.  In the faithful model of Pillow these
conversions succeed; the `Except` result type records where the `try` block
can raise. -/
def resizeConvertExotic (img : Img) : Except String Img :=
  if img.mode = Mode.I16 then .ok (i16Rescale img) else .ok (convertL img)

/-- Recovery of the `except` clause (main.py 78-82): a successful conversion
is kept, a raised conversion falls back to `img.convert('RGB')` instead of
propagating the error out of the item. -/
def resizeRecover (r : Except String Img) (img : Img) : Img :=
  match r with
  | .ok converted => converted
  | .error _ => convertRGB img

/-- Pixel-mode normalization run by `_resize_image` before the resample
(main.py 64-82): only `I;16`, `I` and `F` images are touched, every other
mode - including `LA` and `P` - passes through unchanged.  The result of
this function is exactly the image handed to the `img.resize(...)` call. -/
def resizeNormalize (img : Img) : Img :=
  if img.mode = Mode.I16 ∨ img.mode = Mode.I ∨ img.mode = Mode.F then
    resizeRecover (resizeConvertExotic img) img
  else img

/-- JPEG color finalization of `_resize_image` (main.py 87-105), applied to
the resized image: for `RGBA`, `LA` and `P` a white `RGB` background is
created; `P` is first converted to `RGBA`; an `RGBA` image is pasted with
its alpha band as mask (alpha-weighted composite); any other image - i.e.
`LA` - is pasted with no mask, which converts it to `RGB` and covers the
background entirely; plain `L` and every remaining non-`RGB` mode are
converted to `RGB`.  Non-JPEG targets are left untouched. -/
def resizeJpegFinalize (outputFormat : String) (resized : Img) : Img :=
  if strUpper outputFormat = "JPEG" then
    if resized.mode = Mode.RGBA ∨ resized.mode = Mode.LA ∨ resized.mode = Mode.P then
      let r1 := if resized.mode = Mode.P then convertRGBA resized else resized
      if r1.mode = Mode.RGBA then compositeOnWhiteRGBA r1
      else convertRGB r1
    else if resized.mode = Mode.L then convertRGB resized
    else if resized.mode ≠ Mode.RGB then convertRGB resized
    else resized
  else resized

/-- Image fed to `ImageOps.invert` by `_invert_image` (main.py 127-135):
an `RGBA` image is composited onto opaque white through its alpha band;
every other non-`RGB` mode is converted directly to `RGB` (for `LA` this
drops the alpha band without compositing). -/
def invertPre (img : Img) : Img :=
  if img.mode = Mode.RGBA then compositeOnWhiteRGBA img
  else if img.mode ≠ Mode.RGB then convertRGB img
  else img

/-- Full pixel transformation of `_invert_image` (main.py 124-135). -/
def invertImage (img : Img) : Img := imageOpsInvert (invertPre img)

/-- Flattening onto an opaque white background as the specification words it
(spec sections 4.2/4.3): every color channel of an alpha-carrying pixel is
alpha-weighted against white, producing an opaque `RGB` image.  Stated from
the spec, for comparison against the code's finalization. -/
def specFlattenOnWhite (img : Img) : Img :=
  ⟨Mode.RGB,
   img.px.map (fun x => match x with
     | .rgba r g b a => .rgb (blendCh a 255 r) (blendCh a 255 g) (blendCh a 255 b)
     | .grayA v a => .rgb (blendCh a 255 v) (blendCh a 255 v) (blendCh a 255 v)
     | x => pxToRGB img.palette x),
   img.palette⟩

/-- A source file path, decomposed the way `pathlib.Path` exposes it to the
code: `parent` directory, `stem` (name without the final extension) and
`suffix` (the final extension, dot included, possibly empty). -/
structure SrcPath where
  parent : String
  stem : String
  suffix : String
deriving DecidableEq

/-- An output path as assembled by the code: directory, base file name and
extension, joined by `os.path.join(output_dir, f"{name}{ext}")`. -/
structure OutPath where
  dir : String
  base : String
  ext : String
deriving DecidableEq

/-- Rendering of an `OutPath` to the string the code passes to `save` /
`shutil.copy2`. -/
def OutPath.render (p : OutPath) : String :=
  p.dir ++ "/" ++ p.base ++ p.ext

/-- Keyword arguments of a rename job, with the `kwargs.get` defaults of
`_rename_file` already resolved. -/
structure RenameCfg where
  replaceText : String
  withText : String
  prefixText : String
  preserveFormat : Bool
  outputFormat : String
deriving DecidableEq

/-- Content written to the output path: either the raw bytes of the source
file (a `shutil.copy2`) or a re-encoded image in a given format. -/
inductive FileData
  | raw (bytes : List Nat)
  | encoded (img : Img) (format : String)
deriving DecidableEq

/-- Base-name computation of `_rename_file` (main.py 150-156): start from
the stem, apply the literal replace when `replace_text` is non-empty, then
prepend `prefix_text` when non-empty. -/
def renameNewName (replaceText withText prefixText stem : String) : String :=
  let n := if replaceText ≠ "" then stem.replace replaceText withText else stem
  if prefixText ≠ "" then prefixText ++ n else n

/-- Extension choice of `_rename_file` (main.py 159-163): the original
suffix when the format is preserved, otherwise `.jpg` for JPEG and the
lowercased format name for everything else. -/
def renameExtension (preserveFormat : Bool) (originalSuffix outputFormat : String) : String :=
  if preserveFormat then originalSuffix
  else if strUpper outputFormat = "JPEG" then ".jpg"
  else "." ++ strLower outputFormat

/-- Output-directory choice of `_rename_file` (main.py 166-169): the empty
string is the sentinel for "use each source file's own directory". -/
def renameOutputDir (outputDir : String) (src : SrcPath) : String :=
  if outputDir = "" then src.parent else outputDir

/-- Re-encoding branch of `_rename_file` when the format is not preserved
(main.py 178-184): for a JPEG target an `RGBA` image is composited onto
white through its alpha mask, while an `LA` image is pasted with mask `None`
(converted to `RGB`, alpha ignored); everything else is saved as decoded. -/
def renameReencode (outputFormat : String) (img : Img) : Img :=
  if strUpper outputFormat = "JPEG" ∧ (img.mode = Mode.RGBA ∨ img.mode = Mode.LA) then
    if img.mode = Mode.RGBA then compositeOnWhiteRGBA img
    else convertRGB img
  else img

/-- The whole of `_rename_file` (main.py 140-184), as a function from the
source path, its raw bytes and its decoded image to the output path and the
data written there.  When `preserve_format` is true the file is copied
byte-for-byte (`shutil.copy2`) and the decoded image is never consulted. -/
def renameFile (cfg : RenameCfg) (outputDir : String) (src : SrcPath)
    (srcBytes : List Nat) (srcImg : Img) : OutPath × FileData :=
  let newName := renameNewName cfg.replaceText cfg.withText cfg.prefixText src.stem
  let newExt := renameExtension cfg.preserveFormat src.suffix cfg.outputFormat
  let dir := renameOutputDir outputDir src
  let path : OutPath := ⟨dir, newName, newExt⟩
  if cfg.preserveFormat then (path, .raw srcBytes)
  else (path, .encoded (renameReencode cfg.outputFormat srcImg) (strUpper cfg.outputFormat))

/-- Base-name computation of `_get_output_path` (main.py 188-199),
transcribed separately from the one in `_rename_file` so that their
agreement is a theorem, not a definition. -/
def resolverBaseName (replaceText withText prefixText stem : String) : String :=
  let b1 := if replaceText ≠ "" then stem.replace replaceText withText else stem
  if prefixText ≠ "" then prefixText ++ b1 else b1

/-- Extension rule of `_get_output_path` (main.py 201). -/
def resolverExtension (outputFormat : String) : String :=
  if strUpper outputFormat = "JPEG" then ".jpg" else "." ++ strLower outputFormat

/-- Directory rule of `_get_output_path` (main.py 204-207). -/
def resolverOutputDir (outputDir : String) (src : SrcPath) : String :=
  if outputDir = "" then src.parent else outputDir

/-- The whole of `_get_output_path` (main.py 186-209), used by the resize
and invert operations. -/
def getOutputPath (replaceText withText prefixText outputDir outputFormat : String)
    (src : SrcPath) : OutPath :=
  ⟨resolverOutputDir outputDir src,
   resolverBaseName replaceText withText prefixText src.stem,
   resolverExtension outputFormat⟩

/-- Output-directory policy as the specification models it (spec section 3):
an explicit directory, or each source file's own parent directory. -/
inductive DirPolicy
  | explicitDir (d : String)
  | originalDir
deriving DecidableEq

/-- Directory resolution as the specification words it (spec section 4.5). -/
def specDir (pol : DirPolicy) (src : SrcPath) : String :=
  match pol with
  | .explicitDir d => d
  | .originalDir => src.parent

/-- The policy encoded by the code's string sentinel: the GUI passes `""`
for "use original directory" (main.py 466-469). -/
def dirPolicyOfFlag (outputDir : String) : DirPolicy :=
  if outputDir = "" then .originalDir else .explicitDir outputDir

/-- Extension rule as the specification words it (spec section 4.5 and the
claim: `.jpg` when the format is JPEG, otherwise the lowercase format
name). -/
def specExtension (outputFormat : String) : String :=
  if outputFormat = "JPEG" then ".jpg" else "." ++ strLower outputFormat

/-- Fuelled base-2 logarithm on naturals (`⌊log2 n⌋` for `n ≥ 1`, 0 for
`n = 0`); structural recursion on the fuel keeps it kernel-reducible, and
128 units of fuel cover every magnitude the percent computation reaches. -/
def natLog2F : Nat → Nat → Nat
  | 0, _ => 0
  | fuel + 1, n => if n < 2 then 0 else natLog2F fuel (n / 2) + 1

/-- Floor of the base-2 logarithm of the positive fraction `n / d`, valid
whenever `2 ^ (-64) ≤ n / d` (every quantity in the percent computation is
far inside that range): scale by `2 ^ 64`, take the integer part, take its
integer log2. -/
def ilog2Frac (n d : Nat) : Int :=
  (natLog2F 128 (n * 2 ^ 64 / d) : Int) - 64

/-- Round the positive fraction `n / d` to the nearest IEEE-754 binary64
value (round to nearest, ties to even), exactly, for magnitudes where
binary64 is normal.  The result is returned as a mantissa-exponent pair
`(m, e)` denoting `m * 2 ^ e` with `2 ^ 52 ≤ m ≤ 2 ^ 53`. -/
def roundMantExp (n d : Nat) : Nat × Int :=
  let k : Int := ilog2Frac n d
  let shift : Int := 52 - k
  let nS : Nat := if 0 ≤ shift then n * 2 ^ shift.toNat else n
  let dS : Nat := if 0 ≤ shift then d else d * 2 ^ (-shift).toNat
  let q : Nat := nS / dS
  let r : Nat := nS % dS
  let m : Nat :=
    if 2 * r < dS then q
    else if dS < 2 * r then q + 1
    else if q % 2 = 0 then q else q + 1
  (m, k - 52)

/-- The progress percentage computed by `run` (main.py 46):
`int((i + 1) / total_files * 100)` - a binary64 division, a binary64
multiplication (multiplying the 53-bit mantissa by the exactly
representable 100 and re-rounding it to 53 bits), then truncation toward
zero (equal to the floor, as the value is non-negative). -/
def pyPercent (index total : Nat) : Nat :=
  let p1 := roundMantExp index total
  let p2 := roundMantExp (p1.1 * 100) 1
  let e : Int := p1.2 + p2.2
  if 0 ≤ e then p2.1 * 2 ^ e.toNat else p2.1 / 2 ^ (-e).toNat

/-- The percentage the specification promises, `round(index / total * 100)`
in exact arithmetic: for the non-negative fraction `index * 100 / total`
this is `⌊(2 * index * 100 + total) / (2 * total)⌋`. -/
def specRoundPercent (index total : Nat) : Nat :=
  (2 * (index * 100) + total) / (2 * total)

/-- Model of `os.path.basename`: the part of the path after the last
separator. -/
def baseName (path : String) : String :=
  ⟨(path.data.reverse.takeWhile (fun c => c ≠ '/')).reverse⟩

/-- Payload of a `status_updated` emission, structured by which f-string of
`run` produced it; `render` recovers the exact emitted text. -/
inductive StatusMsg
  | processing (name : String)
  | errorProcessing (name reason : String)
  | complete
deriving DecidableEq

/-- Exact text carried by the `status_updated` signal (main.py 37, 51, 53). -/
def StatusMsg.render : StatusMsg → String
  | .processing n => "Processing: " ++ n
  | .errorProcessing n r => "Error processing " ++ n ++ ": " ++ r
  | .complete => "Processing complete!"

/-- One observable emission of the worker thread: the four Qt signals
`status_updated`, `progress_updated`, `progress_count_updated` and
`finished_processing`. -/
inductive Event
  | status (msg : StatusMsg)
  | percent (value : Nat)
  | count (current total : Nat)
  | finishedSignal
deriving DecidableEq

/-- Filesystem access performed while processing one item. -/
inductive Eff
  | readFile (path : String)
  | writeFile (path : String)
deriving DecidableEq

/-- Result of invoking the selected transform on one file: whether it raised
(the `Except` error is the exception text) and the filesystem accesses it
performed before returning or raising. -/
structure ItemResult where
  outcome : Except String Unit
  effects : List Eff

/-- Whether an event is a `progress_count_updated` emission. -/
def Event.isCount : Event → Bool
  | .count _ _ => true
  | _ => false

/-- Whether an event is a `progress_updated` (percent) emission. -/
def Event.isPercent : Event → Bool
  | .percent _ => true
  | _ => false

/-- Whether an event is an error status, i.e. came from the `except` clause
of the batch loop. -/
def Event.isErrorStatus : Event → Bool
  | .status (.errorProcessing _ _) => true
  | _ => false

/-- The batch loop of `run` (main.py 35-54) from position `i` on: each item
emits its processing status; if the transform returns, the percent and the
count `(i + 1, total)` are emitted; if it raises, only the error status is
emitted - the progress emissions are inside the `try` and are skipped.
After the last item the completion status and the finished signal follow.
`step` is the behavior of the selected transform on the `i`-th file. -/
def runBatchAux (step : Nat → String → ItemResult) (total : Nat) :
    Nat → List String → List Event × List Eff
  | _, [] => ([Event.status .complete, Event.finishedSignal], [])
  | i, f :: fs =>
      let r := step i f
      let rest := runBatchAux step total (i + 1) fs
      (Event.status (.processing (baseName f)) ::
         ((match r.outcome with
           | .ok _ => [Event.percent (pyPercent (i + 1) total), Event.count (i + 1) total]
           | .error e => [Event.status (.errorProcessing (baseName f) e)]) ++ rest.1),
       r.effects ++ rest.2)

/-- The whole of `ImageProcessor.run` (main.py 32-54): events emitted and
filesystem accesses performed over the full file list. -/
def runBatch (step : Nat → String → ItemResult) (files : List String) :
    List Event × List Eff :=
  runBatchAux step files.length 0 files

/-- Operation dispatch of the batch loop (main.py 39-44): an operation
string that is none of `resize`, `invert`, `rename` selects no transform at
all, so the item trivially succeeds with no filesystem access. -/
def dispatchItem (operation : String)
    (resizeItem invertItem renameItem : String → ItemResult) (f : String) : ItemResult :=
  if operation = "resize" then resizeItem f
  else if operation = "invert" then invertItem f
  else if operation = "rename" then renameItem f
  else ⟨.ok (), []⟩

/-- Spec-side description: the 0-based positions of the items whose
transform returns normally, in processing order, starting at position `i`. -/
def successIdx (step : Nat → String → ItemResult) : Nat → List String → List Nat
  | _, [] => []
  | i, f :: fs =>
      match (step i f).outcome with
      | .ok _ => i :: successIdx step (i + 1) fs
      | .error _ => successIdx step (i + 1) fs

/-- Spec-side description: basename and exception text of each failing item,
in processing order. -/
def failList (step : Nat → String → ItemResult) : Nat → List String → List (String × String)
  | _, [] => []
  | i, f :: fs =>
      match (step i f).outcome with
      | .ok _ => failList step (i + 1) fs
      | .error e => (baseName f, e) :: failList step (i + 1) fs

/-- Spec-side description of the event trace of a batch in which every item
succeeds: processing status, percent and count for each item in order,
then the completion status and the finished signal. -/
def allSuccessEvents (total : Nat) : Nat → List String → List Event
  | _, [] => [Event.status .complete, Event.finishedSignal]
  | i, f :: fs =>
      Event.status (.processing (baseName f)) ::
      Event.percent (pyPercent (i + 1) total) ::
      Event.count (i + 1) total ::
      allSuccessEvents total (i + 1) fs

/-- An 8-bit RGB pixel with all channels in range. -/
def pxIsRGB8 : Px → Bool
  | .rgb r g b => decide (r ≤ 255) && decide (g ≤ 255) && decide (b ≤ 255)
  | _ => false

/-- An 8-bit RGBA pixel with all channels in range. -/
def pxIsRGBA8 : Px → Bool
  | .rgba r g b a => decide (r ≤ 255) && decide (g ≤ 255) && decide (b ≤ 255) && decide (a ≤ 255)
  | _ => false

/-- A well-formed opaque RGB image: tagged `RGB` and every pixel is an
in-range `rgb` sample. -/
def wfRGB (img : Img) : Prop :=
  img.mode = Mode.RGB ∧ ∀ x ∈ img.px, pxIsRGB8 x = true

/-- A well-formed RGBA pixel buffer: every pixel is an in-range `rgba`
sample. -/
def wfRGBApx (img : Img) : Prop :=
  ∀ x ∈ img.px, pxIsRGBA8 x = true

instance (img : Img) : Decidable (wfRGB img) := by
  unfold wfRGB; infer_instance

instance (img : Img) : Decidable (wfRGBApx img) := by
  unfold wfRGBApx; infer_instance

/-- Concrete opaque RGB image used to witness the involution claim. -/
def sampleRGB : Img := ⟨Mode.RGB, [Px.rgb 10 20 30, Px.rgb 0 255 7], []⟩

/-- Concrete RGBA image with a semi-transparent and a fully transparent
pixel. -/
def sampleRGBA : Img := ⟨Mode.RGBA, [Px.rgba 10 20 30 128, Px.rgba 200 100 0 0], []⟩

/-- Concrete 16-bit grayscale image. -/
def sampleI16 : Img := ⟨Mode.I16, [Px.i16 65535, Px.i16 511], []⟩

/-- Concrete grayscale+alpha image whose single pixel is black and fully
transparent. -/
def sampleLA : Img := ⟨Mode.LA, [Px.grayA 0 0], []⟩

theorem pxInvert_invol (x : Px) (h : pxIsRGB8 x = true) : pxInvert (pxInvert x) = x := by
  cases x <;> simp [pxIsRGB8] at h
  simp only [pxInvert, Px.rgb.injEq]
  omega

theorem invertPre_mode (img : Img) : (invertPre img).mode = Mode.RGB := by
  cases h : img.mode <;>
    simp [invertPre, h, convertRGB, compositeOnWhiteRGBA]

/-- C5: on every well-formed opaque 8-bit RGB image the invert operation of
`_invert_image` is an involution - each channel round-trips under
`v -> 255 - v -> 255 - (255 - v) = v`. -/
theorem c5_invert_involution (img : Img) (h : wfRGB img) :
    invertImage (invertImage img) = img := by
  obtain ⟨hm, hpx⟩ := h
  have h1 : invertPre img = img := by simp [invertPre, hm]
  have h2 : invertPre (imageOpsInvert img) = imageOpsInvert img := by
    simp [invertPre, imageOpsInvert, hm]
  have h3 : invertImage (invertImage img) = imageOpsInvert (imageOpsInvert img) := by
    simp only [invertImage]
    rw [h1, h2]
  rw [h3]
  have h4 : (img.px.map pxInvert).map pxInvert = img.px := by
    rw [List.map_map]
    calc img.px.map (pxInvert ∘ pxInvert)
        = img.px.map id := List.map_congr_left fun x hx => pxInvert_invol x (hpx x hx)
      _ = img.px := List.map_id img.px
  obtain ⟨m, px, pal⟩ := img
  simp only [imageOpsInvert] at h4 ⊢
  simp only [h4]

/-- Witness for C5 at a concrete image. -/
theorem c5_witness :
    wfRGB sampleRGB ∧ invertImage (invertImage sampleRGB) = sampleRGB :=
  ⟨by decide, c5_invert_involution sampleRGB (by decide)⟩

/-- C7: with `preserve_format = true`, `_rename_file` outputs the raw
source bytes unchanged (a byte-faithful copy), keeps the original
extension, and the result does not depend on the decoded pixels at all. -/
theorem c7_rename_preserves_bytes
    (replaceText withText prefixText outputFormat outputDir : String)
    (src : SrcPath) (srcBytes : List Nat) (img img' : Img) :
    (renameFile ⟨replaceText, withText, prefixText, true, outputFormat⟩
        outputDir src srcBytes img).2 = FileData.raw srcBytes
    ∧ (renameFile ⟨replaceText, withText, prefixText, true, outputFormat⟩
        outputDir src srcBytes img).1.ext = src.suffix
    ∧ renameFile ⟨replaceText, withText, prefixText, true, outputFormat⟩
        outputDir src srcBytes img
      = renameFile ⟨replaceText, withText, prefixText, true, outputFormat⟩
        outputDir src srcBytes img' :=
  ⟨rfl, rfl, rfl⟩

/-- Witness for C7 at the specification's concrete scenario:
`IMG_0001.jpg` with replace `IMG -> PIC` and a `2024_` prefix is copied
byte-for-byte. -/
theorem c7_witness :
    (renameFile ⟨"IMG", "PIC", "2024_", true, "JPEG"⟩ "" ⟨"/d", "IMG_0001", ".jpg"⟩
        [1, 2, 3] sampleRGB).2 = FileData.raw [1, 2, 3] :=
  (c7_rename_preserves_bytes "IMG" "PIC" "2024_" "JPEG" "" ⟨"/d", "IMG_0001", ".jpg"⟩
    [1, 2, 3] sampleRGB sampleRGB).1

/-- C8: the base name is the stem with replace applied first and the
non-empty prefix prepended, computed identically by `_rename_file` and
`_get_output_path`; the extension is `.jpg` for JPEG and the lowercase
format name otherwise; the directory follows the explicit-or-original
policy. -/
theorem c8_output_path_resolution :
    (∀ rt wt pt stem, resolverBaseName rt wt pt stem = renameNewName rt wt pt stem)
    ∧ (∀ fmt, fmt ∈ (["JPEG", "PNG", "WEBP"] : List String) →
        resolverExtension fmt = specExtension fmt)
    ∧ (∀ outputDir src, resolverOutputDir outputDir src = specDir (dirPolicyOfFlag outputDir) src)
    ∧ (∀ rt wt pt outputDir fmt src,
        getOutputPath rt wt pt outputDir fmt src
          = ⟨specDir (dirPolicyOfFlag outputDir) src, renameNewName rt wt pt src.stem,
             resolverExtension fmt⟩) := by
  refine ⟨fun rt wt pt stem => rfl, ?_, ?_, ?_⟩
  · intro fmt h
    fin_cases h <;> decide
  · intro d src
    by_cases h : d = "" <;> simp [resolverOutputDir, dirPolicyOfFlag, specDir, h]
  · intro rt wt pt d fmt src
    by_cases h : d = "" <;>
      simp [getOutputPath, resolverOutputDir, dirPolicyOfFlag, specDir,
        resolverBaseName, renameNewName, h]

/-- Witness for C8 at a concrete format. -/
theorem c8_witness :
    ("PNG" ∈ (["JPEG", "PNG", "WEBP"] : List String))
    ∧ resolverExtension "PNG" = specExtension "PNG" :=
  ⟨by decide, c8_output_path_resolution.2.1 "PNG" (by decide)⟩

/-- Concrete 16-bit grayscale image whose single sample 511 distinguishes
the section-4.1 rescale (`511 / 256 = 1`) from a direct RGB clamp
(`min 511 255 = 255`). -/
def sampleI16v511 : Img := ⟨Mode.I16, [Px.i16 511], []⟩

/-- C2 counterexample: for the 16-bit grayscale input with sample 511 - an
input inside the claim's exotic-mode scope - the invert operation does not
run the section-4.1 normalization before inverting: the image it actually
inverts is the direct `convert('RGB')` of the exotic image (sample clamped
to 255), not the result of normalizing first (sample rescaled to
`511 / 256 = 1`, retagged `L`, then coerced to RGB), and the final inverted
outputs differ: `(0,0,0)` from the code versus `(254,254,254)` had the
normalization run first. -/
theorem c2_cex_invert_skips_normalization :
    invertPre sampleI16v511 = ⟨Mode.RGB, [Px.rgb 255 255 255], []⟩
    ∧ resizeNormalize sampleI16v511 = ⟨Mode.L, [Px.gray 1], []⟩
    ∧ invertPre (resizeNormalize sampleI16v511) = ⟨Mode.RGB, [Px.rgb 1 1 1], []⟩
    ∧ invertImage sampleI16v511 = ⟨Mode.RGB, [Px.rgb 0 0 0], []⟩
    ∧ invertImage (resizeNormalize sampleI16v511) = ⟨Mode.RGB, [Px.rgb 254 254 254], []⟩
    ∧ invertImage sampleI16v511 ≠ invertImage (resizeNormalize sampleI16v511) := by
  refine ⟨?_, ?_, ?_, ?_, ?_, ?_⟩ <;> decide

/-- C2 amended: for every input in an exotic pixel mode (`I;16`, `I`, `F`),
the resize operation does run the section-4.1 normalization before
resampling and the normalized image is in the claimed set {grayscale-8,
RGB-8, RGB-8+alpha, palette-8}; the invert operation does not run that
normalization - it converts the exotic image directly to RGB-8 (for `I;16`
this clamps samples instead of rescaling by 1/256) - although in
consequence its inversion still runs on a mode inside the claimed set,
namely RGB-8. -/
theorem c2_exotic_normalization_scope :
    (∀ img, img.mode = Mode.I16 ∨ img.mode = Mode.I ∨ img.mode = Mode.F →
        (resizeNormalize img).mode ∈ [Mode.L, Mode.RGB, Mode.RGBA, Mode.P])
    ∧ (∀ img, img.mode = Mode.I16 ∨ img.mode = Mode.I ∨ img.mode = Mode.F →
        invertPre img = convertRGB img ∧ (invertPre img).mode = Mode.RGB) := by
  refine ⟨?_, ?_⟩
  · intro img h
    rcases h with h | h | h <;>
      simp [resizeNormalize, h, resizeConvertExotic, resizeRecover, i16Rescale, convertL]
  · intro img h
    have hconv : invertPre img = convertRGB img := by
      rcases h with h | h | h <;> simp [invertPre, h]
    exact ⟨hconv, by rw [hconv]; rfl⟩

/-- Witness for the amended C2 at a concrete `I;16` image. -/
theorem c2_witness :
    (sampleI16.mode = Mode.I16 ∨ sampleI16.mode = Mode.I ∨ sampleI16.mode = Mode.F)
    ∧ (invertPre sampleI16 = convertRGB sampleI16
        ∧ (invertPre sampleI16).mode = Mode.RGB) :=
  ⟨Or.inl rfl, c2_exotic_normalization_scope.2 sampleI16 (Or.inl rfl)⟩

/-- C6: `I;16` samples are divided by 256 with truncation and the image is
retagged `L`; `I` and `F` go through the library's `convert('L')`; and when
the guarded conversion raises, the recovery converts to `RGB` directly
instead of failing the item. -/
theorem c6_exotic_normalization :
    (∀ img, img.mode = Mode.I16 →
        resizeNormalize img = i16Rescale img
        ∧ (resizeNormalize img).mode = Mode.L
        ∧ (resizeNormalize img).px = img.px.map px16to8)
    ∧ (∀ img, img.mode = Mode.I ∨ img.mode = Mode.F →
        resizeNormalize img = convertL img ∧ (resizeNormalize img).mode = Mode.L)
    ∧ (∀ img e, resizeRecover (Except.error e) img = convertRGB img
        ∧ (resizeRecover (Except.error e) img).mode = Mode.RGB)
    ∧ (∀ v, px16to8 (Px.i16 v) = Px.gray (v / 256)) := by
  refine ⟨?_, ?_, fun img e => ⟨rfl, rfl⟩, fun v => rfl⟩
  · intro img h
    have heq : resizeNormalize img = i16Rescale img := by
      simp [resizeNormalize, h, resizeConvertExotic, resizeRecover]
    exact ⟨heq, by rw [heq]; rfl, by rw [heq]; rfl⟩
  · intro img h
    have heq : resizeNormalize img = convertL img := by
      rcases h with h | h <;>
        simp [resizeNormalize, h, resizeConvertExotic, resizeRecover]
    exact ⟨heq, by rw [heq]; rfl⟩

/-- Witness for C6 at a concrete 16-bit image. -/
theorem c6_witness :
    sampleI16.mode = Mode.I16
    ∧ (resizeNormalize sampleI16 = i16Rescale sampleI16
        ∧ (resizeNormalize sampleI16).mode = Mode.L
        ∧ (resizeNormalize sampleI16).px = sampleI16.px.map px16to8) :=
  ⟨rfl, c6_exotic_normalization.1 sampleI16 rfl⟩

/-- C3 at the failing input: a fully transparent black `LA` pixel resized to
JPEG is pasted without its alpha mask, so it encodes as black `(0,0,0)`,
while the alpha-weighted composite onto white demanded by the claim would
give white `(255,255,255)`. -/
theorem c3_jpeg_la_flatten_bug :
    resizeJpegFinalize "JPEG" sampleLA = ⟨Mode.RGB, [Px.rgb 0 0 0], []⟩
    ∧ specFlattenOnWhite sampleLA = ⟨Mode.RGB, [Px.rgb 255 255 255], []⟩
    ∧ resizeJpegFinalize "JPEG" sampleLA ≠ specFlattenOnWhite sampleLA := by
  refine ⟨?_, ?_, ?_⟩ <;> decide

/-- C4 counterexample: inverting the fully transparent black `LA` image
gives white, but invert(composite-on-white) of the same image is black -
`_invert_image` composites only `RGBA` inputs, not `LA`. -/
theorem c4_cex_la_not_composited :
    invertImage sampleLA = ⟨Mode.RGB, [Px.rgb 255 255 255], []⟩
    ∧ imageOpsInvert (specFlattenOnWhite sampleLA) = ⟨Mode.RGB, [Px.rgb 0 0 0], []⟩
    ∧ invertImage sampleLA ≠ imageOpsInvert (specFlattenOnWhite sampleLA) := by
  refine ⟨?_, ?_, ?_⟩ <;> decide

/-- C4 amended: the invert output never carries alpha (it is always `RGB`);
for `RGBA` inputs the result is exactly invert(composite-on-white); for
`LA` inputs the alpha band is discarded by a direct `RGB` conversion before
inverting. -/
theorem c4_invert_alpha_amended :
    (∀ img, (invertImage img).mode = Mode.RGB)
    ∧ (∀ img, img.mode = Mode.RGBA → wfRGBApx img →
        invertImage img = imageOpsInvert (specFlattenOnWhite img))
    ∧ (∀ img, img.mode = Mode.LA → invertImage img = imageOpsInvert (convertRGB img)) := by
  refine ⟨?_, ?_, ?_⟩
  · intro img
    have := invertPre_mode img
    simp [invertImage, imageOpsInvert, this]
  · intro img hm hwf
    have h1 : invertPre img = compositeOnWhiteRGBA img := by simp [invertPre, hm]
    have h2 : compositeOnWhiteRGBA img = specFlattenOnWhite img := by
      unfold compositeOnWhiteRGBA specFlattenOnWhite
      have hpx : img.px.map pxCompositeWhite
          = img.px.map (fun x => match x with
            | .rgba r g b a =>
                Px.rgb (blendCh a 255 r) (blendCh a 255 g) (blendCh a 255 b)
            | .grayA v a =>
                Px.rgb (blendCh a 255 v) (blendCh a 255 v) (blendCh a 255 v)
            | x => pxToRGB img.palette x) := by
        refine List.map_congr_left fun x hx => ?_
        have hx8 := hwf x hx
        cases x <;> simp only [pxIsRGBA8] at hx8 <;> first | rfl | exact absurd hx8 (by simp)
      rw [hpx]
    rw [invertImage, h1, h2]
  · intro img hm
    have h1 : invertPre img = convertRGB img := by simp [invertPre, hm]
    rw [invertImage, h1]

/-- Witness for the RGBA part of the amended C4 at a concrete image. -/
theorem c4_witness :
    sampleRGBA.mode = Mode.RGBA ∧ wfRGBApx sampleRGBA
    ∧ invertImage sampleRGBA = imageOpsInvert (specFlattenOnWhite sampleRGBA) :=
  ⟨rfl, by decide, c4_invert_alpha_amended.2.1 sampleRGBA rfl (by decide)⟩

set_option maxRecDepth 8000 in
/-- C9 counterexample: for the second of three successful items the code
emits `int(2 / 3 * 100) = 66`, while `round(2 / 3 * 100) = 67`; the percent
trace of a three-item all-success batch is `[33, 66, 100]`. -/
theorem c9_cex_truncation_not_rounding :
    pyPercent 2 3 = 66 ∧ specRoundPercent 2 3 = 67
    ∧ (runBatch (fun _ _ => ⟨Except.ok (), []⟩) ["a.png", "b.png", "c.png"]).1.filter
        Event.isPercent = [Event.percent 33, Event.percent 66, Event.percent 100] := by
  refine ⟨?_, ?_, ?_⟩ <;> decide

set_option maxRecDepth 8000 in
theorem pyPercent_floor_below13 :
    ((List.range 13).all fun t =>
      ((List.range (t + 1)).all fun i => pyPercent i t == i * 100 / t)) = true := by
  decide

set_option maxRecDepth 8000 in
/-- C9 amended: the emitted percent truncates instead of rounding: it
equals `⌊index * 100 / total⌋` for every total up to 12, and the binary64
arithmetic first deviates even from the exact floor at
`total = 50, index = 29`, where the code emits 57 instead of 58. -/
theorem c9_percent_truncates :
    (∀ total, total < 13 → ∀ index, index ≤ total →
        pyPercent index total = index * 100 / total)
    ∧ pyPercent 29 50 = 57 ∧ (29 * 100) / 50 = 58 := by
  refine ⟨?_, by decide, by decide⟩
  intro t ht i hi
  have h := pyPercent_floor_below13
  rw [List.all_eq_true] at h
  have h1 := h t (List.mem_range.mpr ht)
  simp only [List.all_eq_true] at h1
  have h2 := h1 i (List.mem_range.mpr (by omega))
  simpa using h2

/-- Witness for the amended C9 at a concrete index and total. -/
theorem c9_witness : pyPercent 2 3 = 2 * 100 / 3 :=
  c9_percent_truncates.1 3 (by decide) 2 (by decide)

theorem runBatchAux_terminal (step : Nat → String → ItemResult) (total : Nat) :
    ∀ i fs, ∃ pre, (runBatchAux step total i fs).1
      = pre ++ [Event.status .complete, Event.finishedSignal] := by
  intro i fs
  induction fs generalizing i with
  | nil => exact ⟨[], rfl⟩
  | cons f fs ih =>
      obtain ⟨pre, hpre⟩ := ih (i + 1)
      cases h : (step i f).outcome with
      | ok u =>
          refine ⟨Event.status (.processing (baseName f)) ::
            Event.percent (pyPercent (i + 1) total) :: Event.count (i + 1) total :: pre, ?_⟩
          simp [runBatchAux, h, hpre]
      | error e =>
          refine ⟨Event.status (.processing (baseName f)) ::
            Event.status (.errorProcessing (baseName f) e) :: pre, ?_⟩
          simp [runBatchAux, h, hpre]

theorem runBatchAux_filter_count (step : Nat → String → ItemResult) (total : Nat) :
    ∀ i fs, (runBatchAux step total i fs).1.filter Event.isCount
      = (successIdx step i fs).map (fun j => Event.count (j + 1) total) := by
  intro i fs
  induction fs generalizing i with
  | nil => rfl
  | cons f fs ih =>
      cases h : (step i f).outcome <;>
        simp [runBatchAux, successIdx, h, Event.isCount, Event.isPercent, ih]

theorem runBatchAux_filter_err (step : Nat → String → ItemResult) (total : Nat) :
    ∀ i fs, (runBatchAux step total i fs).1.filter Event.isErrorStatus
      = (failList step i fs).map (fun p => Event.status (.errorProcessing p.1 p.2)) := by
  intro i fs
  induction fs generalizing i with
  | nil => rfl
  | cons f fs ih =>
      cases h : (step i f).outcome <;>
        simp [runBatchAux, failList, h, Event.isErrorStatus, ih]

theorem successIdx_lower (step : Nat → String → ItemResult) :
    ∀ i fs j, j ∈ successIdx step i fs → i ≤ j := by
  intro i fs
  induction fs generalizing i with
  | nil => intro j h; simp [successIdx] at h
  | cons f fs ih =>
      intro j h
      cases ho : (step i f).outcome with
      | ok u =>
          simp [successIdx, ho] at h
          rcases h with rfl | h
          · exact le_rfl
          · exact Nat.le_of_succ_le (ih (i + 1) j h)
      | error e =>
          simp [successIdx, ho] at h
          exact Nat.le_of_succ_le (ih (i + 1) j h)

theorem successIdx_pairwise (step : Nat → String → ItemResult) :
    ∀ i fs, (successIdx step i fs).Pairwise (· < ·) := by
  intro i fs
  induction fs generalizing i with
  | nil => simp [successIdx]
  | cons f fs ih =>
      cases ho : (step i f).outcome with
      | ok u =>
          simp only [successIdx, ho]
          exact List.Pairwise.cons
            (fun j hj => Nat.lt_of_lt_of_le (Nat.lt_succ_self i) (successIdx_lower step (i + 1) fs j hj))
            (ih (i + 1))
      | error e =>
          simp only [successIdx, ho]
          exact ih (i + 1)

/-- C1 counterexample: a one-item batch whose transform raises emits no
`progress_count_updated` event at all - the index-1 ProgressEvent the claim
demands never appears, because the progress emissions sit inside the `try`
block of `run`. -/
theorem c1_cex_no_progress_for_failed_item :
    ((runBatch (fun _ _ => ⟨Except.error "boom", []⟩) ["a.png"]).1.filter Event.isCount = [])
    ∧ Event.count 1 1 ∉ (runBatch (fun _ _ => ⟨Except.error "boom", []⟩) ["a.png"]).1 := by
  refine ⟨?_, ?_⟩ <;> decide

/-- C1 amended: the batch always ends with the completion status and the
finished signal, whatever the per-item outcomes; count-progress events are
emitted exactly for the successful items, carrying index = 1-based position
in the batch (so indices are strictly increasing but skip failed items,
instead of covering 1..N); and the error status events are in one-to-one
correspondence with the failed items, in order. -/
theorem c1_batch_isolation_amended (step : Nat → String → ItemResult) (files : List String) :
    (∃ pre, (runBatch step files).1
        = pre ++ [Event.status .complete, Event.finishedSignal])
    ∧ (runBatch step files).1.filter Event.isCount
        = (successIdx step 0 files).map (fun j => Event.count (j + 1) files.length)
    ∧ (runBatch step files).1.filter Event.isErrorStatus
        = (failList step 0 files).map (fun p => Event.status (.errorProcessing p.1 p.2))
    ∧ (successIdx step 0 files).Pairwise (· < ·) :=
  ⟨runBatchAux_terminal step files.length 0 files,
   runBatchAux_filter_count step files.length 0 files,
   runBatchAux_filter_err step files.length 0 files,
   successIdx_pairwise step 0 files⟩

/-- Witness for the amended C1 at a concrete batch. -/
theorem c1_witness :
    (runBatch (fun _ _ => ⟨Except.ok (), []⟩) ["a.png", "b.png"]).1.filter Event.isCount
      = (successIdx (fun _ _ => ⟨Except.ok (), []⟩) 0 ["a.png", "b.png"]).map
          (fun j => Event.count (j + 1) 2) :=
  (c1_batch_isolation_amended (fun _ _ => ⟨Except.ok (), []⟩) ["a.png", "b.png"]).2.1

theorem runBatchAux_allOk (step : Nat → String → ItemResult) (total : Nat)
    (hstep : ∀ i f, step i f = ⟨Except.ok (), []⟩) :
    ∀ i fs, runBatchAux step total i fs = (allSuccessEvents total i fs, []) := by
  intro i fs
  induction fs generalizing i with
  | nil => rfl
  | cons f fs ih => simp [runBatchAux, allSuccessEvents, hstep, ih]

/-- C10: an operation string other than `resize`, `invert`, `rename`
selects no transform, so every item trivially succeeds: the full
all-success event trace (processing status, percent and count per item,
completion status, finished signal) is emitted and no file is read or
written. -/
theorem c10_unknown_operation_all_success
    (operation : String) (resizeItem invertItem renameItem : String → ItemResult)
    (files : List String)
    (h : operation ∉ (["resize", "invert", "rename"] : List String)) :
    runBatch (fun _ f => dispatchItem operation resizeItem invertItem renameItem f) files
      = (allSuccessEvents files.length 0 files, []) := by
  have h1 : operation ≠ "resize" ∧ operation ≠ "invert" ∧ operation ≠ "rename" := by
    simpa using h
  exact runBatchAux_allOk _ files.length
    (fun i f => by simp [dispatchItem, h1.1, h1.2.1, h1.2.2]) 0 files

/-- Witness for C10: a two-item batch with operation `convert` produces the
all-success trace and no filesystem effects, even though every transform
is set up to fail and touch the filesystem. -/
theorem c10_witness :
    runBatch (fun _ f => dispatchItem "convert"
        (fun _ => ⟨Except.error "E", [Eff.readFile "x"]⟩)
        (fun _ => ⟨Except.error "E", [Eff.readFile "x"]⟩)
        (fun _ => ⟨Except.error "E", [Eff.readFile "x"]⟩) f) ["a.png", "b.png"]
      = (allSuccessEvents 2 0 ["a.png", "b.png"], []) :=
  c10_unknown_operation_all_success "convert" _ _ _ ["a.png", "b.png"] (by decide)

end ImageWrangler
